import Mathlib

/-!
Verification of the FormIQ real-time exercise-coaching engine.

Shallow embedding of the signal-processing and repetition-detection code:
  * `smooth_kp`, `wrap_angle_deg` from `src/core/realtime_detection.py`
  * `SquatState` from `src/core/exercises/squat.py`
  * `ArmCircleState` (hysteresis) from `src/core/exercises/arm_circle_stage_1.py`
  * `ArmCircleState` (rotation accumulator) from `src/core/arm_circle.py`
  * `SquatReferenceChecker.check_form` score logic from `src/core/exercises/squat.py`
  * `ExerciseSession.process_frame` / `_compute_angles` from `src/website/backend/app.py`

Python floats are modelled as rationals; Python ints as integers.
-/

namespace FormIQ

/-- A single detected keypoint: x, y coordinate and detector confidence,
as in the 17-joint COCO keypoint rows `[x, y, conf]` built by
`np.concatenate([kp_array, confs.reshape(-1,1)], axis=1)`. -/
structure Kp where
  x : ℚ
  y : ℚ
  c : ℚ
deriving DecidableEq, Repr

/-- `SMOOTH_ALPHA = 0.35` from `src/core/realtime_detection.py`. -/
def SMOOTH_ALPHA : ℚ := 7/20

/-- `MIN_VISIBLE_KEYPOINTS = 12` from `src/core/realtime_detection.py`. -/
def MIN_VISIBLE_KEYPOINTS : ℕ := 12

/-- The visibility threshold `0.2` used in `confs > 0.2` comparisons. -/
def VIS_TH : ℚ := 1/5

/-- `smooth_kp(prev, new, alpha)` from `src/core/realtime_detection.py` lines 102-113:
`if prev is None: return new` else `alpha * new + (1 - alpha) * prev`.
The numpy expression operates on the whole 17x3 array, i.e. componentwise on
x, y AND the confidence column. -/
def smooth_kp (prev : Option (List Kp)) (neww : List Kp) (alpha : ℚ) : List Kp :=
  match prev with
  | none => neww
  | some p =>
      List.zipWith
        (fun pj nj =>
          Kp.mk (alpha * nj.x + (1 - alpha) * pj.x)
                (alpha * nj.y + (1 - alpha) * pj.y)
                (alpha * nj.c + (1 - alpha) * pj.c))
        p neww

/-- `wrap_angle_deg(a) = ((a + 180) % 360) - 180` from
`src/core/realtime_detection.py` lines 95-100, with Python float `%`
semantics `x % 360 = x - 360 * floor(x / 360)`. -/
def wrap_angle_deg (a : ℚ) : ℚ :=
  ((a + 180) - 360 * (⌊(a + 180) / 360⌋ : ℤ)) - 180

namespace Squat

/-- `CONSECUTIVE_CONFIRM = 3` from `src/core/exercises/squat.py`. -/
def CONSECUTIVE_CONFIRM : ℤ := 3

/-- `SquatState` from `src/core/exercises/squat.py`: phase string
("up"/"down"), the two thresholds, and the consecutive-confirm counter. -/
structure SquatState where
  state : String
  down_th : ℚ
  up_th : ℚ
  counter : ℤ
deriving DecidableEq, Repr

/-- `SquatState.__init__` with the default thresholds
`SQUAT_DOWN_ANGLE = 80`, `SQUAT_UP_ANGLE = 150`. -/
def init : SquatState := ⟨"up", 80, 150, 0⟩

/-- `SquatState.update(avg_knee_angle)` from `src/core/exercises/squat.py`
lines 63-104.  `none` models a `None` measurement. -/
def SquatState.update (s : SquatState) (m : Option ℚ) : Bool × SquatState :=
  match m with
  | none => (false, { s with counter := 0 })
  | some v =>
    if s.state = "up" then
      if v < s.down_th then
        if s.counter + 1 ≥ CONSECUTIVE_CONFIRM then
          (false, { s with state := "down", counter := 0 })
        else
          (false, { s with counter := s.counter + 1 })
      else
        (false, { s with counter := 0 })
    else if s.state = "down" then
      if v > s.up_th then
        if s.counter + 1 ≥ CONSECUTIVE_CONFIRM then
          (true, { s with state := "up", counter := 0 })
        else
          (false, { s with counter := s.counter + 1 })
      else
        (false, { s with counter := 0 })
    else
      (false, s)

/-- Fold `update` over a list of measurements, collecting per-call results. -/
def run : SquatState → List (Option ℚ) → List Bool × SquatState
  | s, [] => ([], s)
  | s, m :: ms =>
      let st := SquatState.update s m
      let rest := run st.2 ms
      (st.1 :: rest.1, rest.2)

end Squat

namespace ArmCircleStage1

/-- `CONSECUTIVE_CONFIRM = 3` from `src/core/exercises/arm_circle_stage_1.py`. -/
def CONSECUTIVE_CONFIRM : ℤ := 3

/-- `ArmCircleState` (hysteresis variant) from
`src/core/exercises/arm_circle_stage_1.py`: phase string ("down"/"up"),
thresholds, and the consecutive-confirm counter. -/
structure ArmCircleState where
  state : String
  down_th : ℚ
  up_th : ℚ
  counter : ℤ
deriving DecidableEq, Repr

/-- `ArmCircleState.__init__` with defaults `ARM_DOWN_ANGLE = 20`,
`ARM_UP_ANGLE = 80`; initial phase is "down". -/
def init : ArmCircleState := ⟨"down", 20, 80, 0⟩

/-- `ArmCircleState.update(avg_arm_angle)` from
`src/core/exercises/arm_circle_stage_1.py` lines 65-107. -/
def ArmCircleState.update (s : ArmCircleState) (m : Option ℚ) : Bool × ArmCircleState :=
  match m with
  | none => (false, { s with counter := 0 })
  | some v =>
    if s.state = "down" then
      if v > s.up_th then
        if s.counter + 1 ≥ CONSECUTIVE_CONFIRM then
          (false, { s with state := "up", counter := 0 })
        else
          (false, { s with counter := s.counter + 1 })
      else
        (false, { s with counter := 0 })
    else if s.state = "up" then
      if v < s.down_th then
        if s.counter + 1 ≥ CONSECUTIVE_CONFIRM then
          (true, { s with state := "down", counter := 0 })
        else
          (false, { s with counter := s.counter + 1 })
      else
        (false, { s with counter := 0 })
    else
      (false, s)

/-- Fold `update` over a list of measurements, collecting per-call results. -/
def run : ArmCircleState → List (Option ℚ) → List Bool × ArmCircleState
  | s, [] => ([], s)
  | s, m :: ms =>
      let st := ArmCircleState.update s m
      let rest := run st.2 ms
      (st.1 :: rest.1, rest.2)

end ArmCircleStage1

namespace ArmCircle

/-- `ArmCircleState` (rotation-accumulator variant) from
`src/core/arm_circle.py`: cumulative rotation, previous heading, and the
rotation threshold (`ARM_CIRCLE_ROTATION_TH = 300` by default). -/
structure ArmCircleState where
  cumulative : ℚ
  prev_angle : Option ℚ
  rotation_th : ℚ
deriving DecidableEq, Repr

/-- `ArmCircleState.__init__` with the default threshold 300. -/
def init : ArmCircleState := ⟨0, none, 300⟩

/-- `ArmCircleState.update(shoulder_center, wrist_center, wrap_angle_deg)`
from `src/core/arm_circle.py` lines 56-102, embedded at the heading level:
the measurement is the `atan2` heading (in degrees) of the wrist-center
minus shoulder-center vector, and `none` models the branch where either
center is unavailable (`prev_angle` is cleared, nothing accumulates).
The transcendental `atan2` itself plays no role in the claims, which are
stated in terms of heading deltas. -/
def ArmCircleState.update (s : ArmCircleState) (m : Option ℚ) : Bool × ArmCircleState :=
  match m with
  | none => (false, { s with prev_angle := none })
  | some ang =>
    match s.prev_angle with
    | none => (false, { s with prev_angle := some ang })
    | some p =>
      if s.rotation_th ≤ s.cumulative + |wrap_angle_deg (ang - p)| then
        (true, { s with cumulative := 0, prev_angle := some ang })
      else
        (false, { s with cumulative := s.cumulative + |wrap_angle_deg (ang - p)|,
                         prev_angle := some ang })

/-- Fold `update` over a list of measurements, collecting per-call results. -/
def run : ArmCircleState → List (Option ℚ) → List Bool × ArmCircleState
  | s, [] => ([], s)
  | s, m :: ms =>
      let st := ArmCircleState.update s m
      let rest := run st.2 ms
      (st.1 :: rest.1, rest.2)

end ArmCircle

/-- Per-frame wrapped heading deltas of a heading sequence:
`wrap_angle_deg` of each consecutive difference, as computed inside
`ArmCircleState.update` across frames. -/
def wrapDeltas (hs : List ℚ) : List ℚ :=
  List.zipWith (fun p c => wrap_angle_deg (c - p)) hs hs.tail

/-- Sum of absolute values of a list, the total accumulated rotation of a
delta sequence. -/
def absSum (l : List ℚ) : ℚ := (l.map (fun d => |d|)).sum

/-- Invariant of `SquatState`: counter stays in `{0, 1, 2}` and the phase
string is one of the two expected values. -/
def SquatInv (s : Squat.SquatState) : Prop :=
  0 ≤ s.counter ∧ s.counter < Squat.CONSECUTIVE_CONFIRM ∧
    (s.state = "up" ∨ s.state = "down")

/-- Invariant of the stage-1 `ArmCircleState`: counter stays in `{0, 1, 2}`
and the phase string is one of the two expected values. -/
def Arm1Inv (s : ArmCircleStage1.ArmCircleState) : Prop :=
  0 ≤ s.counter ∧ s.counter < ArmCircleStage1.CONSECUTIVE_CONFIRM ∧
    (s.state = "up" ∨ s.state = "down")

lemma squat_update_inv (s : Squat.SquatState) (m : Option ℚ) (h : SquatInv s) :
    SquatInv (Squat.SquatState.update s m).2 := by
  obtain ⟨h0, h3, hst⟩ := h
  simp only [Squat.CONSECUTIVE_CONFIRM] at h3
  cases m with
  | none =>
      simp only [Squat.SquatState.update, SquatInv, Squat.CONSECUTIVE_CONFIRM]
      exact ⟨le_refl 0, by norm_num, hst⟩
  | some v =>
      simp only [Squat.SquatState.update, SquatInv, Squat.CONSECUTIVE_CONFIRM]
      split_ifs <;> dsimp only <;>
        refine ⟨?_, ?_, ?_⟩ <;>
        first
          | omega
          | exact hst
          | simp

lemma squat_run_inv : ∀ (ms : List (Option ℚ)) (s : Squat.SquatState),
    SquatInv s → SquatInv (Squat.run s ms).2 := by
  intro ms
  induction ms with
  | nil => intro s h; exact h
  | cons m ms ih =>
      intro s h
      exact ih _ (squat_update_inv s m h)

lemma arm1_update_inv (s : ArmCircleStage1.ArmCircleState) (m : Option ℚ)
    (h : Arm1Inv s) : Arm1Inv (ArmCircleStage1.ArmCircleState.update s m).2 := by
  obtain ⟨h0, h3, hst⟩ := h
  simp only [ArmCircleStage1.CONSECUTIVE_CONFIRM] at h3
  cases m with
  | none =>
      simp only [ArmCircleStage1.ArmCircleState.update, Arm1Inv,
        ArmCircleStage1.CONSECUTIVE_CONFIRM]
      exact ⟨le_refl 0, by norm_num, hst⟩
  | some v =>
      simp only [ArmCircleStage1.ArmCircleState.update, Arm1Inv,
        ArmCircleStage1.CONSECUTIVE_CONFIRM]
      split_ifs <;> dsimp only <;>
        refine ⟨?_, ?_, ?_⟩ <;>
        first
          | omega
          | exact hst
          | simp

lemma arm1_run_inv : ∀ (ms : List (Option ℚ)) (s : ArmCircleStage1.ArmCircleState),
    Arm1Inv s → Arm1Inv (ArmCircleStage1.run s ms).2 := by
  intro ms
  induction ms with
  | nil => intro s h; exact h
  | cons m ms ih =>
      intro s h
      exact ih _ (arm1_update_inv s m h)

/-- C10: after every finite sequence of `update` calls from the initial
state (inputs may include `None`), both hysteresis machines keep the
confirm counter in `{0, ..., CONSECUTIVE_CONFIRM - 1}` and the phase in
exactly the two values "up" / "down". -/
theorem C10_hysteresis_invariant (ms : List (Option ℚ)) :
    SquatInv ((Squat.run Squat.init ms).2) ∧
    Arm1Inv ((ArmCircleStage1.run ArmCircleStage1.init ms).2) := by
  constructor
  · exact squat_run_inv ms Squat.init ⟨by decide, by decide, Or.inl rfl⟩
  · exact arm1_run_inv ms ArmCircleStage1.init ⟨by decide, by decide, Or.inr rfl⟩

/-- C4: starting from the initial squat state (rest phase "up",
thresholds 80/150, confirm count 3), the eleven-reading sequence
`[200,200,200,70,70,70,70,70,160,160,160]` makes `update` return `True`
exactly on the 11th call and `False` on every other call. -/
theorem C4_squat_hysteresis_sequence :
    (Squat.run Squat.init
        (([200,200,200,70,70,70,70,70,160,160,160] : List ℚ).map some)).1
      = [false,false,false,false,false,false,false,false,false,false,true] := by
  decide

lemma wrap_angle_deg_eq_fract (a : ℚ) :
    wrap_angle_deg a = 360 * Int.fract ((a + 180) / 360) - 180 := by
  unfold wrap_angle_deg
  rw [Int.fract]
  field_simp

/-- `wrap_angle_deg 0 = 0`. -/
lemma wrap_angle_deg_zero : wrap_angle_deg 0 = 0 := by
  with_unfolding_all decide

/-- C7 (amended): `wrap_angle_deg` always lands in the half-open interval
`[-180, 180)` (not `(-180, 180]`: the input 180 maps to -180), and the
spec's concrete examples hold. -/
theorem C7_wrap_angle_range :
    (∀ a : ℚ, -180 ≤ wrap_angle_deg a ∧ wrap_angle_deg a < 180) ∧
    wrap_angle_deg 200 = -160 ∧ wrap_angle_deg (-200) = 160 ∧
    wrap_angle_deg 0 = 0 := by
  refine ⟨fun a => ?_, ?_, ?_, ?_⟩
  · have h0 : (0 : ℚ) ≤ Int.fract ((a + 180) / 360) := Int.fract_nonneg _
    have h1 : Int.fract ((a + 180) / 360) < 1 := Int.fract_lt_one _
    rw [wrap_angle_deg_eq_fract a]
    constructor <;> nlinarith
  · with_unfolding_all decide
  · with_unfolding_all decide
  · with_unfolding_all decide

/-- C7 counterexample: `wrap_angle_deg 180 = -180`, which is not in the
claimed interval `(-180, 180]`. -/
theorem C7_counterexample :
    wrap_angle_deg 180 = -180 ∧
    ¬((-180 : ℚ) < wrap_angle_deg 180 ∧ wrap_angle_deg 180 ≤ 180) := by
  with_unfolding_all decide

/-- C8: after a completed repetition (an `update` call that returned
`True`), an immediately repeated call with the same measurement returns
`False`, for the squat hysteresis machine, the stage-1 arm-circle
hysteresis machine, and the rotation-accumulator machine (given a
coherent dead band, resp. a positive rotation threshold). -/
theorem C8_no_double_rep :
    (∀ (s : Squat.SquatState) (v : ℚ), s.down_th ≤ s.up_th →
      (Squat.SquatState.update s (some v)).1 = true →
      (Squat.SquatState.update (Squat.SquatState.update s (some v)).2 (some v)).1
        = false) ∧
    (∀ (s : ArmCircleStage1.ArmCircleState) (v : ℚ), s.down_th ≤ s.up_th →
      (ArmCircleStage1.ArmCircleState.update s (some v)).1 = true →
      (ArmCircleStage1.ArmCircleState.update
          (ArmCircleStage1.ArmCircleState.update s (some v)).2 (some v)).1
        = false) ∧
    (∀ (s : ArmCircle.ArmCircleState) (v : ℚ), 0 < s.rotation_th →
      (ArmCircle.ArmCircleState.update s (some v)).1 = true →
      (ArmCircle.ArmCircleState.update
          (ArmCircle.ArmCircleState.update s (some v)).2 (some v)).1
        = false) := by
  refine ⟨?_, ?_, ?_⟩
  · intro s v hth h
    by_cases hup : s.state = "up"
    · exfalso
      simp only [Squat.SquatState.update, if_pos hup] at h
      split_ifs at h
    · by_cases hdown : s.state = "down"
      · by_cases hv : v > s.up_th
        · by_cases hc : s.counter + 1 ≥ Squat.CONSECUTIVE_CONFIRM
          · have e : (Squat.SquatState.update s (some v)).2
                = { s with state := "up", counter := 0 } := by
              simp only [Squat.SquatState.update, if_neg hup, if_pos hdown,
                if_pos hv, if_pos hc]
            rw [e]
            have hnv : ¬v < s.down_th := not_lt.2 (le_trans hth (le_of_lt hv))
            simp [Squat.SquatState.update, hnv]
          · exfalso
            simp only [Squat.SquatState.update, if_neg hup, if_pos hdown,
              if_pos hv, if_neg hc] at h
            exact Bool.noConfusion h
        · exfalso
          simp only [Squat.SquatState.update, if_neg hup, if_pos hdown,
            if_neg hv] at h
          exact Bool.noConfusion h
      · exfalso
        simp only [Squat.SquatState.update, if_neg hup, if_neg hdown] at h
        exact Bool.noConfusion h
  · intro s v hth h
    by_cases hdown : s.state = "down"
    · exfalso
      simp only [ArmCircleStage1.ArmCircleState.update, if_pos hdown] at h
      split_ifs at h
    · by_cases hup : s.state = "up"
      · by_cases hv : v < s.down_th
        · by_cases hc : s.counter + 1 ≥ ArmCircleStage1.CONSECUTIVE_CONFIRM
          · have e : (ArmCircleStage1.ArmCircleState.update s (some v)).2
                = { s with state := "down", counter := 0 } := by
              simp only [ArmCircleStage1.ArmCircleState.update, if_neg hdown,
                if_pos hup, if_pos hv, if_pos hc]
            rw [e]
            have hnv : ¬v > s.up_th := not_lt.2 (le_trans (le_of_lt hv) hth)
            simp [ArmCircleStage1.ArmCircleState.update, hnv]
          · exfalso
            simp only [ArmCircleStage1.ArmCircleState.update, if_neg hdown,
              if_pos hup, if_pos hv, if_neg hc] at h
            exact Bool.noConfusion h
        · exfalso
          simp only [ArmCircleStage1.ArmCircleState.update, if_neg hdown,
            if_pos hup, if_neg hv] at h
          exact Bool.noConfusion h
      · exfalso
        simp only [ArmCircleStage1.ArmCircleState.update, if_neg hdown,
          if_neg hup] at h
        exact Bool.noConfusion h
  · intro s v hth h
    cases hq : s.prev_angle with
    | none =>
        exfalso
        simp only [ArmCircle.ArmCircleState.update, hq] at h
        exact Bool.noConfusion h
    | some p =>
        by_cases hc : s.rotation_th ≤ s.cumulative + |wrap_angle_deg (v - p)|
        · have e : (ArmCircle.ArmCircleState.update s (some v)).2
              = { s with cumulative := 0, prev_angle := some v } := by
            simp only [ArmCircle.ArmCircleState.update, hq]
            rw [if_pos hc]
          rw [e]
          simp only [ArmCircle.ArmCircleState.update, sub_self,
            wrap_angle_deg_zero, abs_zero, add_zero]
          rw [if_neg (not_le.2 hth)]
        · exfalso
          simp only [ArmCircle.ArmCircleState.update, hq] at h
          rw [if_neg hc] at h
          exact absurd h (by simp)

/-- C8 witness: concrete rep-completing states for all three machines. -/
theorem C8_witness :
    ((80 : ℚ) ≤ 150 ∧
      (Squat.SquatState.update ⟨"down", 80, 150, 2⟩ (some 160)).1 = true ∧
      (Squat.SquatState.update
          (Squat.SquatState.update ⟨"down", 80, 150, 2⟩ (some 160)).2 (some 160)).1
        = false) ∧
    ((20 : ℚ) ≤ 80 ∧
      (ArmCircleStage1.ArmCircleState.update ⟨"up", 20, 80, 2⟩ (some 5)).1 = true ∧
      (ArmCircleStage1.ArmCircleState.update
          (ArmCircleStage1.ArmCircleState.update ⟨"up", 20, 80, 2⟩ (some 5)).2
          (some 5)).1 = false) ∧
    ((0 : ℚ) < 300 ∧
      (ArmCircle.ArmCircleState.update ⟨280, some 0, 300⟩ (some 30)).1 = true ∧
      (ArmCircle.ArmCircleState.update
          (ArmCircle.ArmCircleState.update ⟨280, some 0, 300⟩ (some 30)).2
          (some 30)).1 = false) := by
  refine ⟨⟨by norm_num, ?_, ?_⟩, ⟨by norm_num, ?_, ?_⟩, ⟨by norm_num, ?_, ?_⟩⟩
  · decide
  · exact C8_no_double_rep.1 ⟨"down", 80, 150, 2⟩ 160 (by norm_num) (by decide)
  · decide
  · exact C8_no_double_rep.2.1 ⟨"up", 20, 80, 2⟩ 5 (by norm_num) (by decide)
  · with_unfolding_all decide
  · exact C8_no_double_rep.2.2 ⟨280, some 0, 300⟩ 30 (by norm_num)
      (by with_unfolding_all decide)

lemma absSum_nil : absSum [] = 0 := rfl

lemma absSum_cons (d : ℚ) (l : List ℚ) : absSum (d :: l) = |d| + absSum l := by
  simp [absSum]

lemma absSum_nonneg (l : List ℚ) : 0 ≤ absSum l := by
  induction l with
  | nil => simp [absSum_nil]
  | cons d t ih => rw [absSum_cons]; have := abs_nonneg d; linarith

lemma wrapDeltas_nil : wrapDeltas [] = [] := rfl

lemma wrapDeltas_single (p : ℚ) : wrapDeltas [p] = [] := rfl

lemma wrapDeltas_cons_cons (p h : ℚ) (t : List ℚ) :
    wrapDeltas (p :: h :: t) = wrap_angle_deg (h - p) :: wrapDeltas (h :: t) := rfl

lemma arm_run_length (ms : List (Option ℚ)) :
    ∀ s : ArmCircle.ArmCircleState, (ArmCircle.run s ms).1.length = ms.length := by
  induction ms with
  | nil => intro s; rfl
  | cons m t ih => intro s; simp [ArmCircle.run, ih]

/-- Running the accumulator from a tracking state whose remaining total
rotation stays below the threshold: every output is `false` and the
cumulative rotation just adds up. -/
lemma arm_run_low (hs : List ℚ) :
    ∀ (p c th : ℚ), 0 ≤ c → c + absSum (wrapDeltas (p :: hs)) < th →
    ArmCircle.run ⟨c, some p, th⟩ (hs.map some)
      = (List.replicate hs.length false,
         ⟨c + absSum (wrapDeltas (p :: hs)), some (hs.getLastD p), th⟩) := by
  induction hs with
  | nil =>
      intro p c th h0 hlt
      simp [ArmCircle.run, wrapDeltas_single, absSum_nil]
  | cons h t ih =>
      intro p c th h0 hlt
      rw [wrapDeltas_cons_cons, absSum_cons] at hlt
      have hd0 : 0 ≤ |wrap_angle_deg (h - p)| := abs_nonneg _
      have hS0 : 0 ≤ absSum (wrapDeltas (h :: t)) := absSum_nonneg _
      have hcond : ¬ th ≤ c + |wrap_angle_deg (h - p)| := not_le.2 (by linarith)
      simp only [List.map_cons, ArmCircle.run, ArmCircle.ArmCircleState.update]
      rw [if_neg hcond]
      rw [ih h (c + |wrap_angle_deg (h - p)|) th (by linarith) (by linarith)]
      rw [wrapDeltas_cons_cons, absSum_cons, List.getLastD_cons]
      simp only [List.length_cons, List.replicate_succ, Prod.mk.injEq,
        ArmCircle.ArmCircleState.mk.injEq]
      refine ⟨trivial, by ring, trivial, trivial⟩

/-- `(List.replicate n false)[i]?` is never `some true`. -/
lemma replicate_false_getElem (n i : ℕ) :
    (List.replicate n false)[i]? ≠ some true := by
  rcases lt_or_ge i n with h | h
  · rw [List.getElem?_eq_getElem (by simpa using h)]
    simp
  · rw [List.getElem?_eq_none (by simpa using h)]
    simp

/-- Running the accumulator from a tracking state whose remaining total
rotation crosses the 300 threshold exactly once (total below 600):
exactly one `true` output, it occurs at the first crossing index, and the
cumulative rotation is reset to 0 by that very step. -/
lemma arm_run_cross (hs : List ℚ) :
    ∀ (p c : ℚ), 0 ≤ c → c < 300 →
    300 ≤ c + absSum (wrapDeltas (p :: hs)) →
    c + absSum (wrapDeltas (p :: hs)) < 600 →
    ((ArmCircle.run ⟨c, some p, 300⟩ (hs.map some)).1.count true = 1 ∧
     (∀ i : ℕ,
        ((ArmCircle.run ⟨c, some p, 300⟩ (hs.map some)).1[i]? = some true ↔
          (i < hs.length ∧
           300 ≤ c + absSum ((wrapDeltas (p :: hs)).take (i+1)) ∧
           c + absSum ((wrapDeltas (p :: hs)).take i) < 300))) ∧
     (∀ i : ℕ,
        (ArmCircle.run ⟨c, some p, 300⟩ (hs.map some)).1[i]? = some true →
        (ArmCircle.run ⟨c, some p, 300⟩ ((hs.take (i+1)).map some)).2.cumulative
          = 0)) := by
  induction hs with
  | nil =>
      intro p c h0 hlt300 hge hlt600
      rw [wrapDeltas_single, absSum_nil] at hge
      linarith
  | cons h t ih =>
      intro p c h0 hlt300 hge hlt600
      rw [wrapDeltas_cons_cons, absSum_cons] at hge hlt600
      have hd0 : 0 ≤ |wrap_angle_deg (h - p)| := abs_nonneg _
      have hS0 : 0 ≤ absSum (wrapDeltas (h :: t)) := absSum_nonneg _
      by_cases hc : (300 : ℚ) ≤ c + |wrap_angle_deg (h - p)|
      · -- the threshold is crossed on this very step
        have hrunfull : ArmCircle.run ⟨c, some p, 300⟩ ((h :: t).map some)
            = (true :: List.replicate t.length false,
               ⟨0 + absSum (wrapDeltas (h :: t)), some (t.getLastD h), 300⟩) := by
          simp only [List.map_cons, ArmCircle.run, ArmCircle.ArmCircleState.update]
          rw [if_pos hc, arm_run_low t h 0 300 le_rfl (by linarith)]
        refine ⟨?_, ?_, ?_⟩
        · rw [hrunfull]
          simp [List.count_cons, List.count_replicate]
        · intro i
          rw [hrunfull]
          cases i with
          | zero =>
              simp only [List.getElem?_cons_zero, wrapDeltas_cons_cons,
                List.take_succ_cons, List.take_zero, absSum_cons, absSum_nil,
                add_zero, List.length_cons]
              constructor
              · intro _
                exact ⟨Nat.succ_pos _, by linarith, by linarith⟩
              · intro _
                trivial
          | succ j =>
              simp only [List.getElem?_cons_succ, wrapDeltas_cons_cons,
                List.take_succ_cons, absSum_cons]
              have htk : 0 ≤ absSum ((wrapDeltas (h :: t)).take j) :=
                absSum_nonneg _
              constructor
              · intro habs
                exact absurd habs (replicate_false_getElem _ _)
              · rintro ⟨_, _, h2⟩
                exfalso
                linarith
        · intro i htrue
          cases i with
          | zero =>
              simp only [List.take_succ_cons, List.take_zero, List.map_cons,
                List.map_nil, ArmCircle.run, ArmCircle.ArmCircleState.update]
              rw [if_pos hc]
          | succ j =>
              exfalso
              rw [hrunfull] at htrue
              simp only [List.getElem?_cons_succ] at htrue
              exact absurd htrue (replicate_false_getElem _ _)
      · -- no crossing yet on this step: recurse
        have hc2 : c + |wrap_angle_deg (h - p)| < 300 := lt_of_not_le hc
        have IH := ih h (c + |wrap_angle_deg (h - p)|) (by linarith) hc2
          (by rw [← add_assoc] at hge; exact hge)
          (by rw [← add_assoc] at hlt600; exact hlt600)
        have hrunfull : ArmCircle.run ⟨c, some p, 300⟩ ((h :: t).map some)
            = (false :: (ArmCircle.run ⟨c + |wrap_angle_deg (h - p)|, some h, 300⟩
                  (t.map some)).1,
               (ArmCircle.run ⟨c + |wrap_angle_deg (h - p)|, some h, 300⟩
                  (t.map some)).2) := by
          simp only [List.map_cons, ArmCircle.run, ArmCircle.ArmCircleState.update]
          rw [if_neg hc]
        refine ⟨?_, ?_, ?_⟩
        · rw [hrunfull]
          simpa [List.count_cons] using IH.1
        · intro i
          rw [hrunfull]
          cases i with
          | zero =>
              simp only [List.getElem?_cons_zero, wrapDeltas_cons_cons,
                List.take_succ_cons, List.take_zero, absSum_cons, absSum_nil,
                add_zero, List.length_cons]
              constructor
              · intro habs
                simp at habs
              · rintro ⟨_, h1, _⟩
                exfalso
                linarith
          | succ j =>
              simp only [List.getElem?_cons_succ, wrapDeltas_cons_cons,
                List.take_succ_cons, absSum_cons, List.length_cons]
              rw [← add_assoc, ← add_assoc]
              rw [IH.2.1 j]
              simp [Nat.succ_lt_succ_iff]
        · intro i htrue
          cases i with
          | zero =>
              exfalso
              rw [hrunfull] at htrue
              simp only [List.getElem?_cons_zero] at htrue
              simp at htrue
          | succ j =>
              rw [hrunfull] at htrue
              simp only [List.getElem?_cons_succ] at htrue
              have hpre : ArmCircle.run ⟨c, some p, 300⟩
                  (((h :: t).take (j + 1 + 1)).map some)
                  = (false :: (ArmCircle.run ⟨c + |wrap_angle_deg (h - p)|, some h, 300⟩
                        ((t.take (j + 1)).map some)).1,
                     (ArmCircle.run ⟨c + |wrap_angle_deg (h - p)|, some h, 300⟩
                        ((t.take (j + 1)).map some)).2) := by
                simp only [List.take_succ_cons, List.map_cons, ArmCircle.run,
                  ArmCircle.ArmCircleState.update]
                rw [if_neg hc]
              rw [hpre]
              exact IH.2.2 j htrue

/-- C5: feeding the accumulator (threshold 300) a heading sequence whose
wrapped per-frame deltas are all of one sign: if the absolute deltas sum
to 310, `update` returns `True` on exactly one frame, namely the first
frame at which the running rotation reaches 300 or more, and the
cumulative rotation is reset to 0 on that same frame; if they sum to 290,
`update` returns `False` on every frame. -/
theorem C5_rotation_accumulator (hs : List ℚ)
    (_hsign : (∀ d ∈ wrapDeltas hs, 0 ≤ d) ∨ (∀ d ∈ wrapDeltas hs, d ≤ 0)) :
    (absSum (wrapDeltas hs) = 310 →
      ((ArmCircle.run ArmCircle.init (hs.map some)).1.count true = 1 ∧
       (∀ i : ℕ,
          ((ArmCircle.run ArmCircle.init (hs.map some)).1[i]? = some true ↔
            (i < hs.length ∧ 300 ≤ absSum ((wrapDeltas hs).take i) ∧
             absSum ((wrapDeltas hs).take (i-1)) < 300))) ∧
       (∀ i : ℕ,
          (ArmCircle.run ArmCircle.init (hs.map some)).1[i]? = some true →
          (ArmCircle.run ArmCircle.init ((hs.take (i+1)).map some)).2.cumulative
            = 0))) ∧
    (absSum (wrapDeltas hs) = 290 →
      (ArmCircle.run ArmCircle.init (hs.map some)).1.count true = 0) := by
  cases hs with
  | nil =>
      constructor
      · intro h310
        rw [wrapDeltas_nil, absSum_nil] at h310
        norm_num at h310
      · intro h290
        rw [wrapDeltas_nil, absSum_nil] at h290
        norm_num at h290
  | cons h t =>
      have hstep : ArmCircle.run ArmCircle.init ((h :: t).map some)
          = (false :: (ArmCircle.run ⟨0, some h, 300⟩ (t.map some)).1,
             (ArmCircle.run ⟨0, some h, 300⟩ (t.map some)).2) := by
        simp only [List.map_cons, ArmCircle.run, ArmCircle.ArmCircleState.update,
          ArmCircle.init]
      constructor
      · intro h310
        have CR := arm_run_cross t h 0 le_rfl (by norm_num)
          (by rw [zero_add, h310]; norm_num)
          (by rw [zero_add, h310]; norm_num)
        refine ⟨?_, ?_, ?_⟩
        · rw [hstep]
          simpa [List.count_cons] using CR.1
        · intro i
          rw [hstep]
          cases i with
          | zero =>
              simp only [List.getElem?_cons_zero, List.take_zero, absSum_nil]
              constructor
              · intro habs
                simp at habs
              · rintro ⟨_, habs, _⟩
                norm_num at habs
          | succ j =>
              simp only [List.getElem?_cons_succ, Nat.succ_sub_one,
                List.length_cons]
              rw [CR.2.1 j]
              simp [Nat.succ_lt_succ_iff]
        · intro i htrue
          cases i with
          | zero =>
              exfalso
              rw [hstep] at htrue
              simp at htrue
          | succ j =>
              rw [hstep] at htrue
              simp only [List.getElem?_cons_succ] at htrue
              have hpre : ArmCircle.run ArmCircle.init
                  (((h :: t).take (j + 1 + 1)).map some)
                  = (false :: (ArmCircle.run ⟨0, some h, 300⟩
                        ((t.take (j + 1)).map some)).1,
                     (ArmCircle.run ⟨0, some h, 300⟩
                        ((t.take (j + 1)).map some)).2) := by
                simp only [List.take_succ_cons, List.map_cons, ArmCircle.run,
                  ArmCircle.ArmCircleState.update, ArmCircle.init]
              rw [hpre]
              exact CR.2.2 j htrue
      · intro h290
        rw [hstep, arm_run_low t h 0 300 le_rfl (by rw [zero_add, h290]; norm_num)]
        simp [List.count_cons, List.count_replicate]

/-- C5 witness: the heading sequence `[0, 150, -60, -50]` has one-signed
wrapped deltas `[150, 150, 10]` summing to 310 and completes exactly one
repetition, on the frame where the running rotation first reaches 300;
`[0, 150, -70]` sums to 290 and completes none. -/
theorem C5_witness :
    (∀ d ∈ wrapDeltas [0, 150, -60, -50], (0:ℚ) ≤ d) ∧
    absSum (wrapDeltas [0, 150, -60, -50]) = 310 ∧
    (ArmCircle.run ArmCircle.init (([0, 150, -60, -50] : List ℚ).map some)).1.count
      true = 1 ∧
    ((ArmCircle.run ArmCircle.init
        (([0, 150, -60, -50] : List ℚ).map some)).1[2]? = some true ↔
      (2 < ([0, 150, -60, -50] : List ℚ).length ∧
       300 ≤ absSum ((wrapDeltas [0, 150, -60, -50]).take 2) ∧
       absSum ((wrapDeltas [0, 150, -60, -50]).take 1) < 300)) ∧
    (ArmCircle.run ArmCircle.init
        ((([0, 150, -60, -50] : List ℚ).take 3).map some)).2.cumulative = 0 ∧
    (∀ d ∈ wrapDeltas [0, 150, -70], (0:ℚ) ≤ d) ∧
    absSum (wrapDeltas [0, 150, -70]) = 290 ∧
    (ArmCircle.run ArmCircle.init (([0, 150, -70] : List ℚ).map some)).1.count
      true = 0 := by
  have hsign1 : ∀ d ∈ wrapDeltas [0, 150, -60, -50], (0:ℚ) ≤ d := by
    with_unfolding_all decide
  have hsum1 : absSum (wrapDeltas [0, 150, -60, -50]) = 310 := by
    with_unfolding_all decide
  have hsign2 : ∀ d ∈ wrapDeltas [0, 150, -70], (0:ℚ) ≤ d := by
    with_unfolding_all decide
  have hsum2 : absSum (wrapDeltas [0, 150, -70]) = 290 := by
    with_unfolding_all decide
  have H1 := (C5_rotation_accumulator [0, 150, -60, -50] (Or.inl hsign1)).1 hsum1
  have H2 := (C5_rotation_accumulator [0, 150, -70] (Or.inl hsign2)).2 hsum2
  refine ⟨hsign1, hsum1, H1.1, H1.2.1 2, ?_, hsign2, hsum2, H2⟩
  exact H1.2.2 2 (by with_unfolding_all decide)

/-- Reference angles for one squat phase, as stored in the reference JSON
files / hardcoded fallback of `SquatReferenceChecker._load_references`
(`src/core/exercises/squat.py`); `check_form` consults only `avg_knee`. -/
structure RefAngles where
  avg_knee : ℚ
  avg_hip : ℚ
  torso_lean : ℚ
deriving DecidableEq, Repr

/-- The angle keys of `current_angles` that `check_form` reads; a `none`
field models an absent dictionary key. -/
structure CurrentAngles where
  avg_knee : Option ℚ
  left_knee : Option ℚ
  right_knee : Option ℚ
  torso : Option ℚ
deriving DecidableEq, Repr

/-- The overall-score block of `SquatReferenceChecker.check_form`
(`src/core/exercises/squat.py` lines 226-234):
`score = max(0, min(100, 100 - (total/num / 30.0 * 100)))` over the
deviation values when at least one check happened, else the neutral 50. -/
def overallScore (devs : List ℚ) : ℚ :=
  if devs.length = 0 then 50
  else max 0 (min 100 (100 - ((devs.map (fun d => |d|)).sum / (devs.length : ℚ) / 30 * 100)))

/-- Result of `check_form`: the deviation map, the overall score and the
acceptable-form flag.  The human-readable feedback strings and the
`position` / `tolerance` parameters, which affect only those strings, are
not modelled. -/
structure CheckResult where
  deviations : List (String × ℚ)
  overall_score : ℚ
  is_correct : Bool
deriving DecidableEq, Repr

/-- `SquatReferenceChecker.check_form` from `src/core/exercises/squat.py`
lines 160-246: derives `avg_knee` from the two knee angles when absent,
collects the knee / torso / balance deviations that are measurable, and
scores them; `round(score, 1)` applied to the returned dictionary entry is
display-only floating-point rounding and is not modelled (the flag is
computed from the unrounded score in the source as well). -/
def check_form (ca : CurrentAngles) (ref : RefAngles) : CheckResult :=
  let avg_knee :=
    match ca.avg_knee with
    | some k => some k
    | none =>
        match ca.left_knee, ca.right_knee with
        | some l, some r => some ((l + r) / 2)
        | _, _ => none
  let devs :=
    (match avg_knee with
     | some k => [("knee", k - ref.avg_knee)]
     | none => []) ++
    (match ca.torso with
     | some t => [("torso", 180 - t)]
     | none => []) ++
    (match ca.left_knee, ca.right_knee with
     | some l, some r => [("balance", |l - r|)]
     | _, _ => [])
  { deviations := devs,
    overall_score := overallScore (devs.map Prod.snd),
    is_correct := decide (70 ≤ overallScore (devs.map Prod.snd)) }

lemma clip_sub_identity (x : ℚ) :
    max 0 (min 100 (100 - x)) = 100 - max 0 (min 100 x) := by
  rcases le_total x 0 with h | h <;> rcases le_total x 100 with h2 | h2 <;>
    simp [max_def, min_def] <;> split_ifs <;> linarith

lemma overallScore_bounds (devs : List ℚ) :
    0 ≤ overallScore devs ∧ overallScore devs ≤ 100 := by
  unfold overallScore
  split_ifs with h
  · norm_num
  · constructor
    · exact le_max_left 0 _
    · exact max_le (by norm_num) (min_le_left _ _)

/-- C6: `check_form` always produces a score in [0,100]; the score equals
the spec formula `100 - clip(mean(|deviation|)/30*100, 0, 100)` when at
least one check is possible and exactly 50 when none is (no relevant angle
key present); the acceptable-form flag is set exactly when the score is at
least 70. -/
theorem C6_check_form_score (ca : CurrentAngles) (ref : RefAngles) :
    (0 ≤ (check_form ca ref).overall_score ∧
      (check_form ca ref).overall_score ≤ 100) ∧
    ((check_form ca ref).is_correct = true ↔
      70 ≤ (check_form ca ref).overall_score) ∧
    (check_form ca ref).overall_score =
      (if (check_form ca ref).deviations.length = 0 then (50:ℚ)
       else 100 - max 0 (min 100
         ((((check_form ca ref).deviations.map (fun d => |d.2|)).sum
            / ((check_form ca ref).deviations.length : ℚ)) / 30 * 100))) ∧
    ((check_form ca ref).deviations = [] ↔
      (ca.avg_knee = none ∧ ca.torso = none ∧
        (ca.left_knee = none ∨ ca.right_knee = none))) := by
  refine ⟨?_, ?_, ?_, ?_⟩
  · exact overallScore_bounds _
  · exact decide_eq_true_iff
  · show overallScore ((check_form ca ref).deviations.map Prod.snd) = _
    unfold overallScore
    rw [List.length_map]
    split_ifs with h
    · rfl
    · rw [clip_sub_identity, List.map_map]
      rfl
  · rcases ca with ⟨ak, lk, rk, t⟩
    cases ak <;> cases lk <;> cases rk <;> cases t <;>
      simp [check_form]

/-- C9: the `check_form` overall score is monotone non-increasing in each
absolute deviation: enlarging the absolute deviation of one checked joint,
all others fixed, never increases the score. -/
theorem C9_score_monotone (pre post : List ℚ) (a b : ℚ) (hab : |a| ≤ |b|) :
    overallScore (pre ++ b :: post) ≤ overallScore (pre ++ a :: post) := by
  unfold overallScore
  rw [if_neg (by simp), if_neg (by simp)]
  have hn : (0:ℚ) < ((pre ++ a :: post).length : ℚ) := by
    have : 0 < (pre ++ a :: post).length := by simp
    exact_mod_cast this
  simp only [List.map_append, List.map_cons, List.sum_append, List.sum_cons,
    List.length_append, List.length_cons]
  gcongr

/-- C9 witness: score monotonicity at the concrete deviation lists `[1]`
and `[2]`. -/
theorem C9_witness :
    |(1:ℚ)| ≤ |(2:ℚ)| ∧ overallScore [2] ≤ overallScore [1] :=
  ⟨by norm_num, C9_score_monotone [] [] 1 2 (by norm_num)⟩

/-- Coordinates of joint `i` of a keypoint frame (17-joint COCO layout,
`kp_smooth[i,:2]` in the source); out-of-range indexing, impossible for
the 17-joint frames the detector contract supplies, yields a zero point. -/
def jointXY (kp : List Kp) (i : ℕ) : ℚ × ℚ :=
  ((kp.getD i ⟨0, 0, 0⟩).x, (kp.getD i ⟨0, 0, 0⟩).y)

/-- `ExerciseSession._compute_angles` from `src/website/backend/app.py`
lines 145-186 (STEP 7 of `src/core/realtime_detection.py` builds the same
dictionary): the seven named angles, each from fixed joint indices,
computed unconditionally - per-joint confidence is never consulted.
`angleOf` abstracts `compute_angle_deg` (whose arccos-based numeric value
plays no role in the claims, which concern key presence and state). -/
def computeAngles (angleOf : ℚ × ℚ → ℚ × ℚ → ℚ × ℚ → ℚ)
    (kp : List Kp) : List (String × ℚ) :=
  [("left_knee", angleOf (jointXY kp 11) (jointXY kp 13) (jointXY kp 15)),
   ("right_knee", angleOf (jointXY kp 12) (jointXY kp 14) (jointXY kp 16)),
   ("torso", (angleOf (jointXY kp 5) (jointXY kp 11) (jointXY kp 13)
              + angleOf (jointXY kp 6) (jointXY kp 12) (jointXY kp 14)) / 2),
   ("left_elbow", angleOf (jointXY kp 5) (jointXY kp 7) (jointXY kp 9)),
   ("right_elbow", angleOf (jointXY kp 6) (jointXY kp 8) (jointXY kp 10)),
   ("left_arm_angle", angleOf (jointXY kp 11) (jointXY kp 5) (jointXY kp 9)),
   ("right_arm_angle", angleOf (jointXY kp 12) (jointXY kp 6) (jointXY kp 10))]

/-- Dictionary read `angles[k]` (a `KeyError` cannot occur on the success
path since `_compute_angles` always installs every key). -/
def getAngle (angles : List (String × ℚ)) (k : String) : ℚ :=
  (angles.lookup k).getD 0

/-- `ExerciseSession.state`: a squat machine, a stage-1 arm-circle
machine, or `None` (unknown exercise type). -/
inductive SessState where
  | squat (st : Squat.SquatState)
  | armCircle (st : ArmCircleStage1.ArmCircleState)
  | noState
deriving DecidableEq, Repr

/-- `ExerciseSession` from `src/website/backend/app.py`: exercise type,
repetition counter, smoothing state, and the per-exercise state machine. -/
structure Session where
  exercise_type : String
  rep_count : ℕ
  kp_smooth_prev : Option (List Kp)
  state : SessState
deriving DecidableEq, Repr

/-- The frame-result dictionary of `ExerciseSession.process_frame`.
`machine_called` is an instrumentation flag (not a dictionary entry)
recording whether `self.state.update` was invoked for this frame.
The `annotated_frame` entry (drawing only) is not modelled. -/
structure FrameResult where
  success : Bool
  error : Option String
  rep_count : ℕ
  rep_completed : Bool
  angles : List (String × ℚ)
  machine_called : Bool
deriving DecidableEq, Repr

/-- `ExerciseSession.process_frame` from `src/website/backend/app.py`
lines 56-143, from the pose-detection result onward: `det = none` models
`yolo(frame)` finding nobody; otherwise `det` carries the 17 keypoint rows
`[x, y, conf]`.  The dead normalization block (`center` / `scale` are
computed but never used afterwards) is omitted.  Returns the result
dictionary and the session as mutated by the call. -/
def process_frame (angleOf : ℚ × ℚ → ℚ × ℚ → ℚ × ℚ → ℚ)
    (sess : Session) (det : Option (List Kp)) : FrameResult × Session :=
  match det with
  | none =>
      (⟨false, some "No person detected", sess.rep_count, false, [], false⟩, sess)
  | some keypoints =>
      if (keypoints.filter (fun j => VIS_TH < j.c)).length < MIN_VISIBLE_KEYPOINTS then
        (⟨false, some "Please fully enter the frame", sess.rep_count, false, [],
          false⟩, sess)
      else
        let kp_smooth := smooth_kp sess.kp_smooth_prev keypoints SMOOTH_ALPHA
        let sess1 : Session := { sess with kp_smooth_prev := some kp_smooth }
        if (kp_smooth.filter (fun j => VIS_TH < j.c)).length < MIN_VISIBLE_KEYPOINTS then
          (⟨false, some "Keypoints incomplete - reposition", sess.rep_count, false,
            [], false⟩, sess1)
        else
          let angles := computeAngles angleOf kp_smooth
          let step :=
            if sess.exercise_type = "squat" then
              match sess1.state with
              | SessState.squat st =>
                  let r := Squat.SquatState.update st
                    (some ((getAngle angles "left_knee"
                            + getAngle angles "right_knee") / 2))
                  (r.1, SessState.squat r.2, true)
              | st => (false, st, false)
            else if sess.exercise_type = "arm_circle" then
              match sess1.state with
              | SessState.armCircle st =>
                  let r := ArmCircleStage1.ArmCircleState.update st
                    (some ((getAngle angles "left_arm_angle"
                            + getAngle angles "right_arm_angle") / 2))
                  (r.1, SessState.armCircle r.2, true)
              | st => (false, st, false)
            else (false, sess1.state, false)
          let new_count := if step.1 then sess.rep_count + 1 else sess.rep_count
          (⟨true, none, new_count, step.1, angles, step.2.2⟩,
           { sess1 with rep_count := new_count, state := step.2.1 })

/-- All-zero 17-joint frame (confidence 0 everywhere). -/
def zeroFrame : List Kp := List.replicate 17 ⟨0, 0, 0⟩

/-- 17-joint frame with confidence 0.25 everywhere. -/
def quarterConfFrame : List Kp := List.replicate 17 ⟨0, 0, 1/4⟩

/-- 17-joint frame whose left ankle (joint 15) has confidence 0 while the
16 other joints have confidence 1. -/
def missingAnkleFrame : List Kp :=
  List.replicate 15 ⟨0, 0, 1⟩ ++ [⟨0, 0, 0⟩, ⟨0, 0, 1⟩]

/-- A stand-in angle function for concrete evaluations; the claims proved
here do not depend on the angle values. -/
def angleZero : ℚ × ℚ → ℚ × ℚ → ℚ × ℚ → ℚ := fun _ _ _ => 0

lemma getD_zipWith {α β γ : Type} (f : α → β → γ) (l1 : List α) (l2 : List β)
    (i : ℕ) (d : γ) (d1 : α) (d2 : β) (h1 : i < l1.length) (h2 : i < l2.length) :
    (List.zipWith f l1 l2).getD i d = f (l1.getD i d1) (l2.getD i d2) := by
  induction l1 generalizing l2 i with
  | nil => simp at h1
  | cons a t ih =>
      cases l2 with
      | nil => simp at h2
      | cons b t2 =>
          cases i with
          | zero => simp only [List.zipWith_cons_cons, List.getD_cons_zero]
          | succ j =>
              simp only [List.zipWith_cons_cons, List.getD_cons_succ]
              exact ih t2 j (by simpa using h1) (by simpa using h2)

/-- C2 (amended): the keypoint filter applies the EWMA formula
`alpha * new + (1 - alpha) * prev` to EVERY component of every joint -
x, y AND confidence (the numpy expression acts on the whole 17x3 array);
a `None` previous state yields raw adoption of the new frame. -/
theorem C2_smooth_componentwise (p n : List Kp) (alpha : ℚ) (i : ℕ)
    (hp : p.length = 17) (hn : n.length = 17) (hi : i < 17) :
    smooth_kp none n alpha = n ∧
    ((smooth_kp (some p) n alpha).getD i ⟨0,0,0⟩).x
      = alpha * (n.getD i ⟨0,0,0⟩).x + (1 - alpha) * (p.getD i ⟨0,0,0⟩).x ∧
    ((smooth_kp (some p) n alpha).getD i ⟨0,0,0⟩).y
      = alpha * (n.getD i ⟨0,0,0⟩).y + (1 - alpha) * (p.getD i ⟨0,0,0⟩).y ∧
    ((smooth_kp (some p) n alpha).getD i ⟨0,0,0⟩).c
      = alpha * (n.getD i ⟨0,0,0⟩).c + (1 - alpha) * (p.getD i ⟨0,0,0⟩).c := by
  have hsm : smooth_kp (some p) n alpha
      = List.zipWith
          (fun pj nj =>
            Kp.mk (alpha * nj.x + (1 - alpha) * pj.x)
                  (alpha * nj.y + (1 - alpha) * pj.y)
                  (alpha * nj.c + (1 - alpha) * pj.c)) p n := rfl
  refine ⟨rfl, ?_, ?_, ?_⟩ <;>
    rw [hsm, getD_zipWith
      (fun pj nj =>
        Kp.mk (alpha * nj.x + (1 - alpha) * pj.x)
              (alpha * nj.y + (1 - alpha) * pj.y)
              (alpha * nj.c + (1 - alpha) * pj.c))
      p n i (Kp.mk 0 0 0) (Kp.mk 0 0 0) (Kp.mk 0 0 0) (by omega) (by omega)]

/-- C2 witness: the EWMA component formulas at joint 0 of two concrete
17-joint frames. -/
theorem C2_witness :
    zeroFrame.length = 17 ∧ quarterConfFrame.length = 17 ∧ 0 < 17 ∧
    (smooth_kp none quarterConfFrame SMOOTH_ALPHA = quarterConfFrame ∧
     ((smooth_kp (some zeroFrame) quarterConfFrame SMOOTH_ALPHA).getD 0 ⟨0,0,0⟩).x
       = SMOOTH_ALPHA * (quarterConfFrame.getD 0 ⟨0,0,0⟩).x
         + (1 - SMOOTH_ALPHA) * (zeroFrame.getD 0 ⟨0,0,0⟩).x ∧
     ((smooth_kp (some zeroFrame) quarterConfFrame SMOOTH_ALPHA).getD 0 ⟨0,0,0⟩).y
       = SMOOTH_ALPHA * (quarterConfFrame.getD 0 ⟨0,0,0⟩).y
         + (1 - SMOOTH_ALPHA) * (zeroFrame.getD 0 ⟨0,0,0⟩).y ∧
     ((smooth_kp (some zeroFrame) quarterConfFrame SMOOTH_ALPHA).getD 0 ⟨0,0,0⟩).c
       = SMOOTH_ALPHA * (quarterConfFrame.getD 0 ⟨0,0,0⟩).c
         + (1 - SMOOTH_ALPHA) * (zeroFrame.getD 0 ⟨0,0,0⟩).c) :=
  ⟨by decide, by decide, by decide,
   C2_smooth_componentwise zeroFrame quarterConfFrame SMOOTH_ALPHA 0
     (by decide) (by decide) (by decide)⟩

/-- C2 counterexample: with previous confidence 0 and new confidence 1/4,
the smoothed confidence is `0.35 * 1/4 = 7/80`, not the new frame value
1/4 - confidence does not pass through unfiltered. -/
theorem C2_counterexample :
    ((smooth_kp (some zeroFrame) quarterConfFrame SMOOTH_ALPHA).getD 0 ⟨0,0,0⟩).c
      = 7/80 ∧
    (quarterConfFrame.getD 0 ⟨0,0,0⟩).c = 1/4 ∧
    (smooth_kp (some zeroFrame) quarterConfFrame SMOOTH_ALPHA).map Kp.c
      ≠ quarterConfFrame.map Kp.c := by
  with_unfolding_all decide

/-- C1 (amended): whenever `process_frame` succeeds, the returned
`AngleSet` contains ALL seven angle keys - per-joint confidence is never
consulted by the angle computation, so a low-confidence joint still
contributes its coordinates and no key is ever omitted. -/
theorem C1_angle_keys_always_present (angleOf : ℚ × ℚ → ℚ × ℚ → ℚ × ℚ → ℚ)
    (sess : Session) (det : Option (List Kp))
    (hs : (process_frame angleOf sess det).1.success = true) :
    (process_frame angleOf sess det).1.angles.map Prod.fst =
      ["left_knee", "right_knee", "torso", "left_elbow", "right_elbow",
       "left_arm_angle", "right_arm_angle"] := by
  cases det with
  | none =>
      simp only [process_frame] at hs
      exact Bool.noConfusion hs
  | some kps =>
      simp only [process_frame] at hs ⊢
      split_ifs at hs ⊢ <;>
        first
          | exact Bool.noConfusion hs
          | rfl

/-- C1 witness: a concrete successful frame carrying all seven keys. -/
theorem C1_witness :
    (process_frame angleZero ⟨"squat", 0, none, SessState.squat Squat.init⟩
        (some missingAnkleFrame)).1.success = true ∧
    (process_frame angleZero ⟨"squat", 0, none, SessState.squat Squat.init⟩
        (some missingAnkleFrame)).1.angles.map Prod.fst =
      ["left_knee", "right_knee", "torso", "left_elbow", "right_elbow",
       "left_arm_angle", "right_arm_angle"] :=
  ⟨by with_unfolding_all decide,
   C1_angle_keys_always_present angleZero
     ⟨"squat", 0, none, SessState.squat Squat.init⟩ (some missingAnkleFrame)
     (by with_unfolding_all decide)⟩

/-- C1 counterexample: a processed (successful) frame whose left ankle
(joint 15, required for the `left_knee` angle) has confidence 0 < 0.2,
yet `left_knee` is present in the produced AngleSet. -/
theorem C1_counterexample :
    (missingAnkleFrame.getD 15 ⟨0,0,0⟩).c < VIS_TH ∧
    (process_frame angleZero ⟨"squat", 0, none, SessState.squat Squat.init⟩
        (some missingAnkleFrame)).1.success = true ∧
    ((process_frame angleZero ⟨"squat", 0, none, SessState.squat Squat.init⟩
        (some missingAnkleFrame)).1.angles.lookup "left_knee").isSome = true := by
  with_unfolding_all decide

/-- C3 (amended): every unsuccessful `process_frame` call leaves the
exercise state machine and the repetition counter untouched and never
invokes the machine update; the whole session (smoothing state included)
is unchanged on the no-person and raw-visibility rejections, but on the
"Keypoints incomplete - reposition" rejection the smoothing state has
already been overwritten with the newly smoothed frame. -/
theorem C3_rejected_frame_state (angleOf : ℚ × ℚ → ℚ × ℚ → ℚ × ℚ → ℚ)
    (sess : Session) (det : Option (List Kp))
    (hfail : (process_frame angleOf sess det).1.success = false) :
    (process_frame angleOf sess det).2.state = sess.state ∧
    (process_frame angleOf sess det).2.rep_count = sess.rep_count ∧
    (process_frame angleOf sess det).1.machine_called = false ∧
    ((process_frame angleOf sess det).1.error
        ≠ some "Keypoints incomplete - reposition" →
      (process_frame angleOf sess det).2 = sess) := by
  cases det with
  | none => simp [process_frame]
  | some kps =>
      simp only [process_frame] at hfail ⊢
      split_ifs at hfail ⊢ <;>
        first
          | exact Bool.noConfusion hfail
          | simp

/-- C3 witness: a no-person frame leaves the session fully unchanged. -/
theorem C3_witness :
    (process_frame angleZero ⟨"squat", 0, some zeroFrame, SessState.squat Squat.init⟩
        none).1.success = false ∧
    ((process_frame angleZero ⟨"squat", 0, some zeroFrame, SessState.squat Squat.init⟩
        none).2.state = SessState.squat Squat.init ∧
     (process_frame angleZero ⟨"squat", 0, some zeroFrame, SessState.squat Squat.init⟩
        none).2.rep_count = 0 ∧
     (process_frame angleZero ⟨"squat", 0, some zeroFrame, SessState.squat Squat.init⟩
        none).1.machine_called = false ∧
     ((process_frame angleZero ⟨"squat", 0, some zeroFrame, SessState.squat Squat.init⟩
        none).1.error ≠ some "Keypoints incomplete - reposition" →
      (process_frame angleZero ⟨"squat", 0, some zeroFrame, SessState.squat Squat.init⟩
        none).2 = ⟨"squat", 0, some zeroFrame, SessState.squat Squat.init⟩)) :=
  ⟨by decide,
   C3_rejected_frame_state angleZero
     ⟨"squat", 0, some zeroFrame, SessState.squat Squat.init⟩ none (by decide)⟩

/-- C3 counterexample: a frame passing the raw-confidence gate but failing
the smoothed-confidence gate returns an unsuccessful result, yet the
session is NOT unchanged - its smoothing state was already updated. -/
theorem C3_counterexample :
    (process_frame angleZero ⟨"squat", 0, some zeroFrame, SessState.squat Squat.init⟩
        (some quarterConfFrame)).1.success = false ∧
    (process_frame angleZero ⟨"squat", 0, some zeroFrame, SessState.squat Squat.init⟩
        (some quarterConfFrame)).2
      ≠ ⟨"squat", 0, some zeroFrame, SessState.squat Squat.init⟩ := by
  with_unfolding_all decide

end FormIQ
